import Mathlib

/-!
# The LOCUSTA backend of IOR (`src/aiori-LOCUSTA.c`)

A shallow embedding of the adapter and the properties of its operations.

Conventions of the embedding.

* A C string is the list of its characters before the terminating NUL (`CStr`).
* A pointer that the adapter tests or dereferences is an `Option`: `none` is `NULL`.
  This covers the handle `aiori_fd_t *`, the `struct stat *` buffer, the options block,
  its `runtime_dir` field, the result of `getenv` and the global `hints` pointer.
* Dereferencing `NULL` is undefined behaviour: the operation ends in `Outcome.undef`.
* `malloc`, `strdup` and `realloc` are taken to succeed.
* The external client (`locusta_*`) is a black box.  Every call into it is appended to
  `World.trace`, and what it answers is read from the fields of `Env`, each of which
  may depend on the calls made so far.
* C integers are mathematical integers; the conversions that can change a value
  (`uint64_t` to the signed 64-bit `IOR_offset_t` / `off_t`, `uint32_t` to `mode_t`)
  are written out with an explicit reduction modulo a power of two.  The integer
  widths are those of LP64 Linux: `mode_t` is unsigned 32-bit, `off_t` and
  `IOR_offset_t` (`long long`) are signed 64-bit.
-/

namespace Locusta

/-- A C string: its characters up to, not including, the terminating NUL. -/
abbrev CStr := List Char

/-- Calls into the external client library, with the arguments of the call. -/
inductive Call where
  | init (dirs : List CStr) (num_dirs : Nat)
  | term
  | create (path : CStr) (mode : Nat)
  | pwrite (path : CStr) (buffer : Nat) (len : Int) (offset : Int)
  | pread (path : CStr) (buffer : Nat) (len : Int) (offset : Int)
  | fsync
  | unlink (path : CStr)
  | stat (path : CStr)
  | mkdir (path : CStr) (mode : Nat)
  | rmdir (path : CStr)
  deriving DecidableEq, Repr

/-- Modelled from the spec: the harness type `aiori_xfer_hint_t` (declared in `aiori.h`,
which is not part of the sources); of its flags the adapter reads only `dryRun`, a C
`int` that counts as set when it is non-zero. -/
structure aiori_xfer_hint_t where
  dryRun : Int
  deriving DecidableEq, Repr

/-- The handle `struct Locusta_File`: the client has no descriptors, only the path is kept. -/
structure Locusta_File where
  path : CStr
  deriving DecidableEq, Repr

/-- The options block `struct locusta_option`; `runtime_dir` is `none` when the pointer is
`NULL`. -/
structure locusta_option where
  runtime_dir : Option CStr
  deriving DecidableEq, Repr

/-- The fields of the POSIX `struct stat` (from `sys/stat.h`); the three time stamps are
seconds and nanoseconds. -/
structure struct_stat where
  st_dev : Int
  st_ino : Int
  st_mode : Int
  st_nlink : Int
  st_uid : Int
  st_gid : Int
  st_rdev : Int
  st_size : Int
  st_blksize : Int
  st_blocks : Int
  st_atime_sec : Int
  st_atime_nsec : Int
  st_mtime_sec : Int
  st_mtime_nsec : Int
  st_ctime_sec : Int
  st_ctime_nsec : Int
  deriving DecidableEq, Repr

/-- The result of `memset(buf, 0, sizeof(*buf))` on a `struct stat`. -/
def struct_stat.zero : struct_stat :=
  ⟨0, 0, 0, 0, 0, 0, 0, 0, 0, 0, 0, 0, 0, 0, 0, 0⟩

/-- Everything outside the adapter: the harness constant `WRITE` (from the harness headers,
not part of the sources), the process environment, and the answers of the external client.
Each answer is a function of the calls made before it and of the arguments. -/
structure Env where
  WRITE : Int
  getenv : CStr → Option CStr
  locusta_init : List Call → List CStr → Nat → Int
  locusta_create : List Call → CStr → Nat → Int
  locusta_pwrite : List Call → CStr → Nat → Int → Int → Int
  locusta_pread : List Call → CStr → Nat → Int → Int → Int
  locusta_unlink : List Call → CStr → Int
  locusta_stat : List Call → CStr → Int × Nat × Nat
  locusta_mkdir : List Call → CStr → Nat → Int
  locusta_rmdir : List Call → CStr → Int

/-- The state the adapter reads and writes: the static `hints` pointer, the calls made into
the external client so far, and the lines written to the error stream. -/
structure World where
  hints : Option aiori_xfer_hint_t
  trace : List Call
  stderr : List String
  deriving DecidableEq, Repr

/-- How an operation ends: it returns a value, the process is aborted by the fatal-error
facility, or the behaviour is undefined (a `NULL` pointer is dereferenced, an array is
written out of bounds). -/
inductive Outcome (α : Type) where
  | ret (val : α) (w : World)
  | fatal (msg : String) (w : World)
  | undef
  deriving DecidableEq, Repr

/-- The state in which an operation ended, when it has one. -/
def Outcome.world {α : Type} : Outcome α → Option World
  | .ret _ w => some w
  | .fatal _ w => some w
  | .undef => none

/-- The calls into the external client made up to the end of an operation. -/
def Outcome.calls {α : Type} (o : Outcome α) : Option (List Call) :=
  o.world.map World.trace

/-- The lines on the error stream at the end of an operation. -/
def Outcome.errors {α : Type} (o : Outcome α) : Option (List String) :=
  o.world.map World.stderr

/-- The value an operation returned, when it returned. -/
def Outcome.value {α : Type} : Outcome α → Option α
  | .ret v _ => some v
  | .fatal _ _ => none
  | .undef => none

/-- Whether the operation ended in the fatal error. -/
def Outcome.isFatal {α : Type} : Outcome α → Bool
  | .fatal _ _ => true
  | _ => false

/-- Modelled from the spec: the harness facility `ERR(msg)` (defined in the harness headers,
which are not part of the sources) reports the message and aborts the process. -/
def ERR {α : Type} (msg : String) (w : World) : Outcome α :=
  .fatal msg w

/-- The state after one more call into the external client. -/
def World.call (w : World) (c : Call) : World :=
  { w with trace := w.trace ++ [c] }

/-- Conversion of a 64-bit unsigned value to a signed 64-bit type (`IOR_offset_t`, `off_t`):
the value is kept modulo `2^64`, in the range `-2^63 .. 2^63 - 1`. -/
def toInt64 (n : Nat) : Int :=
  if n % 2 ^ 64 < 2 ^ 63 then (n % 2 ^ 64 : Nat) else ((n % 2 ^ 64 : Nat) : Int) - 2 ^ 64

/-- Conversion to an unsigned 32-bit type (`uint32_t`, `mode_t`). -/
def toUInt32 (n : Nat) : Nat :=
  n % 2 ^ 32

/-- The operation `Locusta_xfer_hints`: stores the harness pointer in the static `hints`. -/
def Locusta_xfer_hints (params : Option aiori_xfer_hint_t) (w : World) : Outcome Unit :=
  .ret () { w with hints := params }

/-- The C library `strtok` for one scan of the text that is left: skip the leading
delimiters; at the end of the text there is no token; otherwise the token runs up to the
next delimiter, which is overwritten by NUL, and the scan resumes after it. Returns the
token (`none` for `NULL`) and the text left for the next call `strtok(NULL, delim)`. -/
def strtok (s : CStr) (delim : CStr) : Option CStr × CStr :=
  let s1 := s.dropWhile (fun ch => delim.contains ch)
  if s1.isEmpty then (none, s1)
  else
    (some (s1.takeWhile (fun ch => !delim.contains ch)),
     (s1.dropWhile (fun ch => !delim.contains ch)).drop 1)

/-- The loop of `Locusta_initialize` over the tokens: `tok` is the current token, `save` the
text `strtok` has left, `dirs` the entries `dirs[0 .. num_dirs)` stored so far and `cap` the
number of entries the array has room for. Returns the entries and their count, or `none`
when an entry would be stored outside the array. -/
def parseDirs (tok : Option CStr) (save : CStr) (dirs : List CStr) (num_dirs cap : Nat) :
    Option (List CStr × Nat) :=
  match tok with
  | none => some (dirs, num_dirs)
  | some t =>
    let cap1 := if num_dirs ≥ cap then cap * 2 else cap
    if num_dirs < cap1 then
      parseDirs (strtok save [',']).1 (strtok save [',']).2 (dirs ++ [t]) (num_dirs + 1) cap1
    else none
termination_by (match tok with | none => 0 | some _ => save.length + 1)
decreasing_by
  cases h : (strtok save [',']).1 with
  | none => simp
  | some t2 =>
    have hlt : (strtok save [',']).2.length < save.length := by
      unfold strtok at h ⊢
      cases hs : List.dropWhile (fun ch => [','].contains ch) save with
      | nil => rw [hs] at h; simp at h
      | cons a l =>
        have hlen : (a :: l).length ≤ save.length := by
          rw [← hs]; exact (List.dropWhile_sublist _).length_le
        have ha := List.head_dropWhile_not (fun ch => [','].contains ch) save (by rw [hs]; simp)
        simp only [hs, List.head_cons] at ha
        have hd : (List.dropWhile (fun ch => ! [','].contains ch) (a :: l)).length ≤ l.length := by
          rw [List.dropWhile_cons_of_pos (by rw [ha]; rfl)]
          exact (List.dropWhile_sublist _).length_le
        simp only [List.isEmpty_cons, Bool.false_eq_true, if_false, List.length_drop]
        simp only [List.length_cons] at hlen
        omega
    simp
    omega

/-- The name of the environment variable read by `Locusta_initialize`. -/
def envName : CStr := "LOCUSTA_RUNTIME_DIRS".toList

/-- The operation `Locusta_initialize`: take the directory string from the option or else from the
environment, abort when there is none or it is empty, split it at the commas and hand the
directories to `locusta_init`; abort when that fails. -/
def Locusta_initialize (E : Env) (options : Option locusta_option) (w : World) :
    Outcome Unit :=
  let dir_str : Option CStr :=
    match options with
    | some o =>
      match o.runtime_dir with
      | some d => some d
      | none => E.getenv envName
    | none => E.getenv envName
  match dir_str with
  | none => ERR "locusta: runtime_dir not specified. Use --locusta.runtime_dir or LOCUSTA_RUNTIME_DIRS env" w
  | some [] => ERR "locusta: runtime_dir not specified. Use --locusta.runtime_dir or LOCUSTA_RUNTIME_DIRS env" w
  | some (c :: cs) =>
    let buf : CStr := c :: cs
    match parseDirs (strtok buf [',']).1 (strtok buf [',']).2 [] 0 8 with
    | none => .undef
    | some (dirs, num_dirs) =>
      if E.locusta_init w.trace dirs num_dirs ≠ 0 then
        ERR "locusta_init failed" (w.call (.init dirs num_dirs))
      else
        .ret () (w.call (.init dirs num_dirs))

/-- The operation `Locusta_finalize`. -/
def Locusta_finalize (_options : Option locusta_option) (w : World) : Outcome Unit :=
  .ret () (w.call .term)

/-- The operation `Locusta_create`. -/
def Locusta_create (E : Env) (fn : CStr) (_flags : Int) (_param : Option locusta_option)
    (w : World) : Outcome (Option Locusta_File) :=
  match w.hints with
  | none => .undef
  | some h =>
    if h.dryRun ≠ 0 then .ret none w
    else if E.locusta_create w.trace fn 0o100644 ≠ 0 then
      ERR "locusta_create failed" (w.call (.create fn 0o100644))
    else
      .ret (some { path := fn }) (w.call (.create fn 0o100644))

/-- The operation `Locusta_open`: no call into the client, the path is only kept. -/
def Locusta_open (fn : CStr) (_flags : Int) (_param : Option locusta_option) (w : World) :
    Outcome (Option Locusta_File) :=
  match w.hints with
  | none => .undef
  | some h =>
    if h.dryRun ≠ 0 then .ret none w
    else .ret (some { path := fn }) w

/-- The line `Locusta_xfer` prints on the error stream after a read whose count differs
from the requested length. -/
def preadDiagnostic (path : CStr) (offset len r : Int) : String :=
  "[LOCUSTA] pread: path=" ++ String.mk path ++ " off=" ++ toString offset ++
    " len=" ++ toString len ++ " r=" ++ toString r ++ "\n"

/-- The operation `Locusta_xfer`. -/
def Locusta_xfer (E : Env) (access : Int) (fd : Option Locusta_File) (buffer : Nat)
    (len offset : Int) (_param : Option locusta_option) (w : World) : Outcome Int :=
  match w.hints with
  | none => .undef
  | some h =>
    if h.dryRun ≠ 0 then .ret len w
    else
      match fd with
      | none => .undef
      | some lf =>
        if access = E.WRITE then
          let r := E.locusta_pwrite w.trace lf.path buffer len offset
          .ret r (w.call (.pwrite lf.path buffer len offset))
        else
          let r := E.locusta_pread w.trace lf.path buffer len offset
          let w1 := w.call (.pread lf.path buffer len offset)
          if r ≠ len then
            .ret r { w1 with stderr := w1.stderr ++ [preadDiagnostic lf.path offset len r] }
          else
            .ret r w1

/-- The operation `Locusta_close`. -/
def Locusta_close (fd : Option Locusta_File) (_param : Option locusta_option) (w : World) :
    Outcome Unit :=
  match w.hints with
  | none => .undef
  | some h =>
    if h.dryRun ≠ 0 then .ret () w
    else
      match fd with
      | none => .undef
      | some _ => .ret () (w.call .fsync)

/-- The operation `Locusta_delete`. -/
def Locusta_delete (fn : CStr) (_param : Option locusta_option) (w : World) : Outcome Unit :=
  match w.hints with
  | none => .undef
  | some h =>
    if h.dryRun ≠ 0 then .ret () w
    else .ret () (w.call (.unlink fn))

/-- The operation `Locusta_fsync`: the body is the single statement `locusta_fsync();`. -/
def Locusta_fsync (_fd : Option Locusta_File) (_param : Option locusta_option) (w : World) :
    Outcome Unit :=
  .ret () (w.call .fsync)

/-- The operation `Locusta_get_file_size`. -/
def Locusta_get_file_size (E : Env) (_param : Option locusta_option) (fn : CStr)
    (w : World) : Outcome Int :=
  match w.hints with
  | none => .undef
  | some h =>
    if h.dryRun ≠ 0 then .ret 0 w
    else if (E.locusta_stat w.trace fn).1 ≠ 0 then .ret (-1) (w.call (.stat fn))
    else .ret (toInt64 (E.locusta_stat w.trace fn).2.2) (w.call (.stat fn))

/-- The operation `Locusta_mkdir`. -/
def Locusta_mkdir (E : Env) (fn : CStr) (mode : Nat) (_param : Option locusta_option)
    (w : World) : Outcome Int :=
  match w.hints with
  | none => .undef
  | some h =>
    if h.dryRun ≠ 0 then .ret 0 w
    else .ret (E.locusta_mkdir w.trace fn (toUInt32 mode)) (w.call (.mkdir fn (toUInt32 mode)))

/-- The operation `Locusta_rmdir`. -/
def Locusta_rmdir (E : Env) (fn : CStr) (_param : Option locusta_option) (w : World) :
    Outcome Int :=
  match w.hints with
  | none => .undef
  | some h =>
    if h.dryRun ≠ 0 then .ret 0 w
    else .ret (E.locusta_rmdir w.trace fn) (w.call (.rmdir fn))

/-- The operation `Locusta_access`: a `locusta_stat` call stands in for the access check. -/
def Locusta_access (E : Env) (fn : CStr) (_mode : Int) (_param : Option locusta_option)
    (w : World) : Outcome Int :=
  match w.hints with
  | none => .undef
  | some h =>
    if h.dryRun ≠ 0 then .ret 0 w
    else .ret (E.locusta_stat w.trace fn).1 (w.call (.stat fn))

/-- The operation `Locusta_stat`: returns the status and what the caller's buffer holds afterwards. -/
def Locusta_stat (E : Env) (fn : CStr) (buf : Option struct_stat)
    (_param : Option locusta_option) (w : World) : Outcome (Int × Option struct_stat) :=
  match w.hints with
  | none => .undef
  | some h =>
    if h.dryRun ≠ 0 then .ret (0, buf) w
    else if (E.locusta_stat w.trace fn).1 ≠ 0 then .ret (-1, buf) (w.call (.stat fn))
    else
      match buf with
      | none => .ret (0, none) (w.call (.stat fn))
      | some _ =>
        .ret (0, some { struct_stat.zero with
                          st_mode := (toUInt32 (E.locusta_stat w.trace fn).2.1 : Nat)
                          st_size := toInt64 (E.locusta_stat w.trace fn).2.2 })
          (w.call (.stat fn))

/-! ## Definitions used to state the properties -/

/-- The `runtime_dir` option as `Locusta_initialize` sees it: unset when the options
pointer is `NULL` or its `runtime_dir` field is `NULL`. -/
def runtimeDirOption (options : Option locusta_option) : Option CStr :=
  options.bind (fun o => o.runtime_dir)

/-- The directory string is `s`: `s` is the value of the `runtime_dir` option, or the
option is unset and `s` is the value of `LOCUSTA_RUNTIME_DIRS`. -/
def DirStringIs (E : Env) (options : Option locusta_option) (s : CStr) : Prop :=
  runtimeDirOption options = some s ∨
    (runtimeDirOption options = none ∧ E.getenv envName = some s)

/-- Specification side: the maximal comma-free runs of a string, in order. The string is
cut at every comma and the empty pieces are left out. -/
def commaRuns (s : CStr) : List CStr :=
  (s.splitOn ',').filter (fun piece => !piece.isEmpty)

/-- Specification side: the names joined with `,`. -/
def joinComma (names : List CStr) : CStr :=
  [','].intercalate names

/-- An environment whose client answers success everywhere, transfers the full length and
reports mode `m` and size `s` from `locusta_stat`; `WRITE` is 0 and the environment variable
is unset. -/
def okEnv (m s : Nat) : Env where
  WRITE := 0
  getenv := fun _ => none
  locusta_init := fun _ _ _ => 0
  locusta_create := fun _ _ _ => 0
  locusta_pwrite := fun _ _ _ len _ => len
  locusta_pread := fun _ _ _ len _ => len
  locusta_unlink := fun _ _ => 0
  locusta_stat := fun _ _ => (0, m, s)
  locusta_mkdir := fun _ _ _ => 0
  locusta_rmdir := fun _ _ => 0

/-- An environment whose `locusta_stat` fails with status `st`, and whose environment
variable `LOCUSTA_RUNTIME_DIRS` has the value `v`. -/
def failEnv (st : Int) (v : Option CStr) : Env where
  WRITE := 0
  getenv := fun n => if n = envName then v else none
  locusta_init := fun _ _ _ => 0
  locusta_create := fun _ _ _ => 0
  locusta_pwrite := fun _ _ _ len _ => len
  locusta_pread := fun _ _ _ len _ => len
  locusta_unlink := fun _ _ => 0
  locusta_stat := fun _ _ => (st, 0, 0)
  locusta_mkdir := fun _ _ _ => 0
  locusta_rmdir := fun _ _ => 0

/-- An environment as `okEnv 0 0`, except that the positioned read and the positioned write
return `r` whatever they are asked. -/
def shortEnv (r : Int) : Env :=
  { okEnv 0 0 with
    locusta_pwrite := fun _ _ _ _ _ => r
    locusta_pread := fun _ _ _ _ _ => r }

/-- Ten directory names, `d0` to `d9`. -/
def tenNames : List CStr :=
  ["d0".toList, "d1".toList, "d2".toList, "d3".toList, "d4".toList, "d5".toList,
   "d6".toList, "d7".toList, "d8".toList, "d9".toList]

/-- A state with the hints registered, the flag `dryRun` being `d`, before any call. -/
def startWorld (d : Int) : World :=
  { hints := some { dryRun := d }, trace := [], stderr := [] }

/-! ## Integer conversions -/

theorem toInt64_of_lt (s : Nat) (hs : s < 2 ^ 64) :
    toInt64 s = if s < 2 ^ 63 then (s : Int) else (s : Int) - 2 ^ 64 := by
  unfold toInt64
  rw [Nat.mod_eq_of_lt hs]

theorem toUInt32_of_lt (m : Nat) (hm : m < 2 ^ 32) : toUInt32 m = m := by
  unfold toUInt32
  exact Nat.mod_eq_of_lt hm

/-! ## Dry run -/

/-- In dry-run every operation that tests the flag leaves the calls into the external
client as they were: create, open, xfer, close, delete, get_file_size, mkdir, rmdir, access
and stat. -/
theorem dryRun_guarded_operations_make_no_call (E : Env) (w : World) (h : aiori_xfer_hint_t)
    (hh : w.hints = some h) (hdry : h.dryRun ≠ 0)
    (fn : CStr) (flags access amode : Int) (param : Option locusta_option)
    (fd : Option Locusta_File) (buffer : Nat) (len offset : Int) (mode : Nat)
    (buf : Option struct_stat) :
    (Locusta_create E fn flags param w).calls = some w.trace ∧
    (Locusta_open fn flags param w).calls = some w.trace ∧
    (Locusta_xfer E access fd buffer len offset param w).calls = some w.trace ∧
    (Locusta_close fd param w).calls = some w.trace ∧
    (Locusta_delete fn param w).calls = some w.trace ∧
    (Locusta_get_file_size E param fn w).calls = some w.trace ∧
    (Locusta_mkdir E fn mode param w).calls = some w.trace ∧
    (Locusta_rmdir E fn param w).calls = some w.trace ∧
    (Locusta_access E fn amode param w).calls = some w.trace ∧
    (Locusta_stat E fn buf param w).calls = some w.trace := by
  simp [Locusta_create, Locusta_open, Locusta_xfer, Locusta_close, Locusta_delete,
    Locusta_get_file_size, Locusta_mkdir, Locusta_rmdir, Locusta_access, Locusta_stat,
    Outcome.calls, Outcome.world, hh, hdry]

/-- Whatever the hints hold, `Locusta_fsync` makes one call into the external client. -/
theorem fsync_always_calls_client (fd : Option Locusta_File) (param : Option locusta_option)
    (w : World) : (Locusta_fsync fd param w).calls = some (w.trace ++ [Call.fsync]) := by
  rfl

/-- C1 (the code at the failing input): with the dry-run flag set in the registered hints
and no call made so far, `Locusta_fsync` on the null handle calls the external
`locusta_fsync`, so the calls after the operation differ from the calls before it, while
`Locusta_close` on the same input makes no call. -/
theorem fsync_in_dryRun_calls_client :
    (startWorld 1).hints = some { dryRun := 1 } ∧
    (Locusta_fsync none none (startWorld 1)).calls = some [Call.fsync] ∧
    (Locusta_fsync none none (startWorld 1)).calls ≠ some (startWorld 1).trace ∧
    (Locusta_close none none (startWorld 1)).calls = some (startWorld 1).trace := by
  decide

/-- C2: with the dry-run flag set, create and open return the null handle, xfer returns
the requested length for every access kind, handle, buffer, offset and length,
get_file_size returns 0, mkdir, rmdir, access and stat return 0, and stat leaves the
caller's buffer as it was. -/
theorem dryRun_results (E : Env) (w : World) (h : aiori_xfer_hint_t)
    (hh : w.hints = some h) (hdry : h.dryRun ≠ 0)
    (fn : CStr) (flags access amode : Int) (param : Option locusta_option)
    (fd : Option Locusta_File) (buffer : Nat) (len offset : Int) (mode : Nat)
    (buf : Option struct_stat) :
    (Locusta_create E fn flags param w).value = some none ∧
    (Locusta_open fn flags param w).value = some none ∧
    (Locusta_xfer E access fd buffer len offset param w).value = some len ∧
    (Locusta_get_file_size E param fn w).value = some 0 ∧
    (Locusta_mkdir E fn mode param w).value = some 0 ∧
    (Locusta_rmdir E fn param w).value = some 0 ∧
    (Locusta_access E fn amode param w).value = some 0 ∧
    (Locusta_stat E fn buf param w).value = some (0, buf) := by
  simp [Locusta_create, Locusta_open, Locusta_xfer, Locusta_get_file_size, Locusta_mkdir,
    Locusta_rmdir, Locusta_access, Locusta_stat, Outcome.value, hh, hdry]

/-- The dry-run results at a concrete input: a failing client, the null handle and a
buffer that holds non-zero fields. -/
theorem dryRun_results_witness :
    (startWorld 1).hints = some { dryRun := 1 } ∧ (1 : Int) ≠ 0 ∧
    (Locusta_create (failEnv 5 none) ['f'] 2 none (startWorld 1)).value = some none ∧
    (Locusta_open ['f'] 2 none (startWorld 1)).value = some none ∧
    (Locusta_xfer (failEnv 5 none) 0 none 0 100 7 none (startWorld 1)).value = some 100 ∧
    (Locusta_get_file_size (failEnv 5 none) none ['f'] (startWorld 1)).value = some 0 ∧
    (Locusta_mkdir (failEnv 5 none) ['f'] 493 none (startWorld 1)).value = some 0 ∧
    (Locusta_rmdir (failEnv 5 none) ['f'] none (startWorld 1)).value = some 0 ∧
    (Locusta_access (failEnv 5 none) ['f'] 0 none (startWorld 1)).value = some 0 ∧
    (Locusta_stat (failEnv 5 none) ['f']
        (some { struct_stat.zero with st_uid := 3 }) none (startWorld 1)).value =
      some (0, some { struct_stat.zero with st_uid := 3 }) :=
  ⟨rfl, by decide,
    dryRun_results (failEnv 5 none) (startWorld 1) { dryRun := 1 } rfl (by decide)
      ['f'] 2 0 0 none none 0 100 7 493 (some { struct_stat.zero with st_uid := 3 })⟩

/-! ## Stat and file size -/

/-- C5, a counterexample: outside dry-run the external stat succeeds with mode `0100644`
and size `2^63`; the buffer then holds the size `-2^63`, so it is not the buffer with mode
`0100644`, size `2^63` and every other field zero. -/
theorem stat_size_counterexample :
    (Locusta_stat (okEnv 0o100644 (2 ^ 63)) ['f'] (some struct_stat.zero) none
        (startWorld 0)).value =
      some (0, some { struct_stat.zero with st_mode := 0o100644, st_size := -(2 ^ 63) }) ∧
    (Locusta_stat (okEnv 0o100644 (2 ^ 63)) ['f'] (some struct_stat.zero) none
        (startWorld 0)).value ≠
      some (0, some { struct_stat.zero with st_mode := 0o100644, st_size := 2 ^ 63 }) := by
  decide

/-- C5 as amended: outside dry-run, when the external stat succeeds reporting a 32-bit mode
`m` and a 64-bit size `s` and the buffer is non-null, stat returns 0 and the buffer holds
mode `m`, the size `s` when `s < 2^63` and `s - 2^64` otherwise, and zero in every other
field, whatever it held before. -/
theorem stat_success_fills_buffer (E : Env) (fn : CStr) (b0 : struct_stat)
    (param : Option locusta_option) (w : World) (h : aiori_xfer_hint_t)
    (hh : w.hints = some h) (hdry : h.dryRun = 0) (m s : Nat)
    (hstat : E.locusta_stat w.trace fn = (0, m, s)) (hm : m < 2 ^ 32) (hs : s < 2 ^ 64) :
    (Locusta_stat E fn (some b0) param w).value =
      some (0, some { struct_stat.zero with
                        st_mode := (m : Int)
                        st_size := if s < 2 ^ 63 then (s : Int) else (s : Int) - 2 ^ 64 }) := by
  simp only [Locusta_stat, Outcome.value, hh, hdry, hstat, toUInt32_of_lt m hm,
    toInt64_of_lt s hs, ne_eq, not_true_eq_false, if_false]

/-- The amended C5 at a concrete input: mode `0100644`, size 100, a buffer with non-zero
fields before the call. -/
theorem stat_success_fills_buffer_witness :
    (startWorld 0).hints = some { dryRun := 0 } ∧
    (okEnv 0o100644 100).locusta_stat (startWorld 0).trace ['f'] = (0, 0o100644, 100) ∧
    (Locusta_stat (okEnv 0o100644 100) ['f']
        (some { struct_stat.zero with st_uid := 3, st_size := 9 }) none (startWorld 0)).value =
      some (0, some { struct_stat.zero with
                        st_mode := ((0o100644 : Nat) : Int)
                        st_size := if 100 < 2 ^ 63 then ((100 : Nat) : Int)
                                   else ((100 : Nat) : Int) - 2 ^ 64 }) :=
  ⟨rfl, rfl,
    stat_success_fills_buffer (okEnv 0o100644 100) ['f']
      { struct_stat.zero with st_uid := 3, st_size := 9 } none (startWorld 0) { dryRun := 0 }
      rfl rfl 0o100644 100 rfl (by decide) (by decide)⟩

/-- C6: outside dry-run, whenever the external stat returns a non-zero status,
get_file_size returns -1, and stat returns -1 and leaves the caller's buffer (null or not)
exactly as it was. -/
theorem stat_failure_results (E : Env) (fn : CStr) (buf : Option struct_stat)
    (param : Option locusta_option) (w : World) (h : aiori_xfer_hint_t)
    (hh : w.hints = some h) (hdry : h.dryRun = 0)
    (hfail : (E.locusta_stat w.trace fn).1 ≠ 0) :
    (Locusta_get_file_size E param fn w).value = some (-1) ∧
    (Locusta_stat E fn buf param w).value = some (-1, buf) := by
  simp [Locusta_get_file_size, Locusta_stat, Outcome.value, hh, hdry, hfail]

/-- C6 at a concrete input: the external stat returns the positive status 5. -/
theorem stat_failure_results_witness :
    (startWorld 0).hints = some { dryRun := 0 } ∧
    ((failEnv 5 none).locusta_stat (startWorld 0).trace ['f']).1 ≠ 0 ∧
    (Locusta_get_file_size (failEnv 5 none) none ['f'] (startWorld 0)).value = some (-1) ∧
    (Locusta_stat (failEnv 5 none) ['f'] (some { struct_stat.zero with st_uid := 3 }) none
        (startWorld 0)).value = some (-1, some { struct_stat.zero with st_uid := 3 }) :=
  ⟨rfl, by decide,
    stat_failure_results (failEnv 5 none) ['f'] (some { struct_stat.zero with st_uid := 3 })
      none (startWorld 0) { dryRun := 0 } rfl rfl (by decide)⟩

/-- C7, a counterexample: outside dry-run the external stat succeeds reporting the size
`2^64 - 1`, and get_file_size returns -1, which is neither that size nor a sign that the
external stat failed. -/
theorem get_file_size_counterexample :
    ((okEnv 0 (2 ^ 64 - 1)).locusta_stat (startWorld 0).trace ['f']).1 = 0 ∧
    (Locusta_get_file_size (okEnv 0 (2 ^ 64 - 1)) none ['f'] (startWorld 0)).value =
      some (-1) ∧
    (Locusta_get_file_size (okEnv 0 (2 ^ 64 - 1)) none ['f'] (startWorld 0)).value ≠
      some (((2 ^ 64 - 1 : Nat) : Int)) := by
  decide

/-- C7 as amended: outside dry-run, when the external stat succeeds reporting a 64-bit
size `s`, get_file_size returns `s` when `s < 2^63` and `s - 2^64` otherwise; and whenever
its result is -1, the external stat failed or reported the size `2^64 - 1`. -/
theorem get_file_size_result (E : Env) (fn : CStr) (param : Option locusta_option)
    (w : World) (h : aiori_xfer_hint_t) (hh : w.hints = some h) (hdry : h.dryRun = 0)
    (hs : (E.locusta_stat w.trace fn).2.2 < 2 ^ 64) :
    ((E.locusta_stat w.trace fn).1 = 0 →
      (Locusta_get_file_size E param fn w).value =
        some (if (E.locusta_stat w.trace fn).2.2 < 2 ^ 63
              then ((E.locusta_stat w.trace fn).2.2 : Int)
              else ((E.locusta_stat w.trace fn).2.2 : Int) - 2 ^ 64)) ∧
    ((Locusta_get_file_size E param fn w).value = some (-1) →
      (E.locusta_stat w.trace fn).1 ≠ 0 ∨ (E.locusta_stat w.trace fn).2.2 = 2 ^ 64 - 1) := by
  constructor
  · intro hok
    simp only [Locusta_get_file_size, Outcome.value, hh, hdry, hok, toInt64_of_lt _ hs,
      ne_eq, not_true_eq_false, if_false]
  · intro hres
    by_cases hok : (E.locusta_stat w.trace fn).1 = 0
    · right
      simp only [Locusta_get_file_size, hh, hdry, hok, ne_eq, not_true_eq_false, if_false,
        Outcome.value, toInt64_of_lt _ hs, Option.some.injEq] at hres
      split_ifs at hres
      omega
    · left
      exact hok

/-- The amended C7 at a concrete input: the external stat reports the size 100. -/
theorem get_file_size_result_witness :
    (startWorld 0).hints = some { dryRun := 0 } ∧
    ((okEnv 0 100).locusta_stat (startWorld 0).trace ['f']).2.2 < 2 ^ 64 ∧
    (Locusta_get_file_size (okEnv 0 100) none ['f'] (startWorld 0)).value = some 100 :=
  ⟨rfl, by decide,
    by simpa [okEnv] using
      (get_file_size_result (okEnv 0 100) ['f'] none (startWorld 0) { dryRun := 0 } rfl rfl
        (by decide)).1 rfl⟩

/-! ## Transfer and create -/

/-- C8: outside dry-run, on a non-null handle, xfer makes exactly one external call, on the
handle's path with the caller's buffer, length and offset: the positioned write when the
access is `WRITE`, the positioned read for every other access. It returns the count that
call returned, whatever it is. A write adds nothing to the error stream; a read adds one
diagnostic line when its count differs from the length and nothing otherwise. -/
theorem xfer_delegates (E : Env) (access : Int) (lf : Locusta_File) (buffer : Nat)
    (len offset : Int) (param : Option locusta_option) (w : World) (h : aiori_xfer_hint_t)
    (hh : w.hints = some h) (hdry : h.dryRun = 0) :
    (access = E.WRITE →
      (Locusta_xfer E access (some lf) buffer len offset param w).calls =
          some (w.trace ++ [Call.pwrite lf.path buffer len offset]) ∧
      (Locusta_xfer E access (some lf) buffer len offset param w).value =
          some (E.locusta_pwrite w.trace lf.path buffer len offset) ∧
      (Locusta_xfer E access (some lf) buffer len offset param w).errors = some w.stderr) ∧
    (access ≠ E.WRITE →
      (Locusta_xfer E access (some lf) buffer len offset param w).calls =
          some (w.trace ++ [Call.pread lf.path buffer len offset]) ∧
      (Locusta_xfer E access (some lf) buffer len offset param w).value =
          some (E.locusta_pread w.trace lf.path buffer len offset) ∧
      (Locusta_xfer E access (some lf) buffer len offset param w).errors =
          some (if E.locusta_pread w.trace lf.path buffer len offset ≠ len
                then w.stderr ++ [preadDiagnostic lf.path offset len
                        (E.locusta_pread w.trace lf.path buffer len offset)]
                else w.stderr)) := by
  constructor
  · intro ha
    simp [Locusta_xfer, Outcome.calls, Outcome.value, Outcome.errors, Outcome.world,
      World.call, hh, hdry, ha]
  · intro ha
    by_cases hr : E.locusta_pread w.trace lf.path buffer len offset = len <;>
      simp [Locusta_xfer, Outcome.calls, Outcome.value, Outcome.errors, Outcome.world,
        World.call, hh, hdry, ha, hr]

/-- C8 at concrete inputs: a write and a read of 100 bytes at offset 7 for which the client
returns the short count 40. -/
theorem xfer_delegates_witness :
    (startWorld 0).hints = some { dryRun := 0 } ∧ (0 : Int) = 0 ∧
    ((Locusta_xfer (shortEnv 40) 0 (some { path := ['f'] }) 0 100 7 none
          (startWorld 0)).calls = some [Call.pwrite ['f'] 0 100 7] ∧
      (Locusta_xfer (shortEnv 40) 0 (some { path := ['f'] }) 0 100 7 none
          (startWorld 0)).value = some 40 ∧
      (Locusta_xfer (shortEnv 40) 0 (some { path := ['f'] }) 0 100 7 none
          (startWorld 0)).errors = some []) ∧
    ((Locusta_xfer (shortEnv 40) 1 (some { path := ['f'] }) 0 100 7 none
          (startWorld 0)).calls = some [Call.pread ['f'] 0 100 7] ∧
      (Locusta_xfer (shortEnv 40) 1 (some { path := ['f'] }) 0 100 7 none
          (startWorld 0)).value = some 40 ∧
      (Locusta_xfer (shortEnv 40) 1 (some { path := ['f'] }) 0 100 7 none
          (startWorld 0)).errors = some [preadDiagnostic ['f'] 7 100 40]) :=
  ⟨rfl, rfl,
    (xfer_delegates (shortEnv 40) 0 { path := ['f'] } 0 100 7 none (startWorld 0)
      { dryRun := 0 } rfl rfl).1 rfl,
    (xfer_delegates (shortEnv 40) 1 { path := ['f'] } 0 100 7 none (startWorld 0)
      { dryRun := 0 } rfl rfl).2 (by decide)⟩

/-- C9: outside dry-run, create calls the external create exactly once, with the given path
and the mode octal `0100644` (the regular-file bit `0100000` and the permissions `0644`),
whatever the flags are. It ends in the fatal error if and only if that call returns a
non-zero status, and otherwise returns a non-null handle whose path is the given path. -/
theorem create_calls_client_once (E : Env) (fn : CStr) (flags : Int)
    (param : Option locusta_option) (w : World) (h : aiori_xfer_hint_t)
    (hh : w.hints = some h) (hdry : h.dryRun = 0) :
    (0o100644 : Nat) = 0o100000 + 0o644 ∧
    (Locusta_create E fn flags param w).calls =
      some (w.trace ++ [Call.create fn 0o100644]) ∧
    ((Locusta_create E fn flags param w).isFatal = true ↔
      E.locusta_create w.trace fn 0o100644 ≠ 0) ∧
    (E.locusta_create w.trace fn 0o100644 = 0 →
      (Locusta_create E fn flags param w).value = some (some { path := fn })) := by
  refine ⟨by decide, ?_, ?_, ?_⟩
  · by_cases hc : E.locusta_create w.trace fn 0o100644 = 0 <;>
      simp [Locusta_create, ERR, Outcome.calls, Outcome.world, World.call, hh, hdry, hc]
  · by_cases hc : E.locusta_create w.trace fn 0o100644 = 0 <;>
      simp [Locusta_create, ERR, Outcome.isFatal, hh, hdry, hc]
  · intro hc
    simp [Locusta_create, Outcome.value, hh, hdry, hc]

/-- C9 at a concrete input: the client accepts the create of the path `f`. -/
theorem create_calls_client_once_witness :
    (startWorld 0).hints = some { dryRun := 0 } ∧ (0 : Int) = 0 ∧
    (Locusta_create (okEnv 0 0) ['f'] 2 none (startWorld 0)).calls =
      some [Call.create ['f'] 33188] ∧
    (Locusta_create (okEnv 0 0) ['f'] 2 none (startWorld 0)).isFatal = false ∧
    (Locusta_create (okEnv 0 0) ['f'] 2 none (startWorld 0)).value =
      some (some { path := ['f'] }) :=
  ⟨rfl, rfl,
    (create_calls_client_once (okEnv 0 0) ['f'] 2 none (startWorld 0) { dryRun := 0 }
      rfl rfl).2.1,
    by decide,
    (create_calls_client_once (okEnv 0 0) ['f'] 2 none (startWorld 0) { dryRun := 0 }
      rfl rfl).2.2.2 rfl⟩

/-! ## Initialize -/

/-- C4: whenever the `runtime_dir` option is unset (the options pointer or its
`runtime_dir` field is null) and `LOCUSTA_RUNTIME_DIRS` is unset or empty, initialize ends
in the fatal error and makes no call into the external client, so the external init is
not called. -/
theorem initialize_without_directories_is_fatal (E : Env) (options : Option locusta_option)
    (w : World) (hopt : runtimeDirOption options = none)
    (henv : E.getenv envName = none ∨ E.getenv envName = some []) :
    ( Locusta_initialize E options w).isFatal = true ∧
    ( Locusta_initialize E options w).calls = some w.trace := by
  unfold Locusta_initialize
  rcases options with _ | ⟨_ | d⟩
  · rcases henv with he | he <;>
      simp [he, ERR, Outcome.isFatal, Outcome.calls, Outcome.world]
  · rcases henv with he | he <;>
      simp [he, ERR, Outcome.isFatal, Outcome.calls, Outcome.world]
  · simp [runtimeDirOption] at hopt

/-- C4 at a concrete input: the options block is there, its `runtime_dir` is null and the
environment variable is the empty string. -/
theorem initialize_without_directories_is_fatal_witness :
    runtimeDirOption (some { runtime_dir := none }) = none ∧
    ((failEnv 0 (some [])).getenv envName = none ∨
      (failEnv 0 (some [])).getenv envName = some []) ∧
    ( Locusta_initialize (failEnv 0 (some [])) (some { runtime_dir := none })
        (startWorld 0)).isFatal = true ∧
    ( Locusta_initialize (failEnv 0 (some [])) (some { runtime_dir := none })
        (startWorld 0)).calls = some [] :=
  ⟨rfl, Or.inr (by decide),
    initialize_without_directories_is_fatal (failEnv 0 (some []))
      (some { runtime_dir := none }) (startWorld 0) rfl (Or.inr (by decide))⟩

/-! ## The directory string and its comma-free runs -/

theorem commaRuns_nil : commaRuns [] = [] := by
  decide

theorem commaRuns_cons_comma (s : CStr) : commaRuns (',' :: s) = commaRuns s := by
  simp [commaRuns, List.splitOn, List.splitOnP_cons]

theorem commaRuns_dropWhile_comma (s : CStr) :
    commaRuns (s.dropWhile (fun ch => [','].contains ch)) = commaRuns s := by
  induction s with
  | nil => rfl
  | cons a l ih =>
    by_cases ha : a = ','
    · subst ha
      rw [List.dropWhile_cons_of_pos (by decide), ih, commaRuns_cons_comma]
    · rw [List.dropWhile_cons_of_neg (by simpa using ha)]

/-- A string that starts with a character other than the comma: its first run is the text
before the first comma, and the other runs are those of the text after that comma. -/
theorem commaRuns_first_run (a : Char) (l : CStr) (ha : a ≠ ',') :
    commaRuns (a :: l) =
      (a :: l).takeWhile (fun ch => ! [','].contains ch) ::
        commaRuns (((a :: l).dropWhile (fun ch => ! [','].contains ch)).drop 1) := by
  have hsplit := List.takeWhile_append_dropWhile (fun ch => ! [','].contains ch) (a :: l)
  have htok : ∀ x ∈ (a :: l).takeWhile (fun ch => ! [','].contains ch), ¬ ((x == ',') = true) := by
    intro x hx
    have := List.mem_takeWhile_imp hx
    simpa using this
  have hne : (a :: l).takeWhile (fun ch => ! [','].contains ch) ≠ [] := by
    rw [List.takeWhile_cons_of_pos (by simpa using ha)]
    simp
  cases hrest : (a :: l).dropWhile (fun ch => ! [','].contains ch) with
  | nil =>
    rw [hrest, List.append_nil] at hsplit
    rw [hsplit] at htok hne ⊢
    simp only [List.drop_nil, commaRuns_nil]
    unfold commaRuns List.splitOn
    rw [List.splitOnP_eq_single _ _ htok]
    simp
  | cons c r =>
    have hc : c = ',' := by
      have := List.head_dropWhile_not (fun ch => ! [','].contains ch) (a :: l)
        (by rw [hrest]; simp)
      simp only [hrest, List.head_cons] at this
      simpa using this
    subst hc
    rw [hrest] at hsplit
    have hrun : commaRuns ((a :: l).takeWhile (fun ch => ! [','].contains ch) ++ ',' :: r) =
        (a :: l).takeWhile (fun ch => ! [','].contains ch) :: commaRuns r := by
      unfold commaRuns List.splitOn
      rw [List.splitOnP_first _ _ htok ',' (by decide)]
      rw [List.filter_cons_of_pos]
      simpa using hne
    rw [hsplit] at hrun
    simpa using hrun

theorem strtok_rest_length (s : CStr) (t : CStr) (h : (strtok s [',']).1 = some t) :
    (strtok s [',']).2.length < s.length := by
  unfold strtok at h ⊢
  cases hs : List.dropWhile (fun ch => [','].contains ch) s with
  | nil => rw [hs] at h; simp at h
  | cons a l =>
    have hlen : (a :: l).length ≤ s.length := by
      rw [← hs]; exact (List.dropWhile_sublist _).length_le
    have ha := List.head_dropWhile_not (fun ch => [','].contains ch) s (by rw [hs]; simp)
    simp only [hs, List.head_cons] at ha
    have hd : (List.dropWhile (fun ch => ! [','].contains ch) (a :: l)).length ≤ l.length := by
      rw [List.dropWhile_cons_of_pos (by rw [ha]; rfl)]
      exact (List.dropWhile_sublist _).length_le
    simp only [List.isEmpty_cons, Bool.false_eq_true, if_false, List.length_drop]
    simp only [List.length_cons] at hlen
    omega

/-- What `strtok` finds is the first comma-free run, and what it leaves holds the others. -/
theorem commaRuns_eq_strtok (s : CStr) :
    commaRuns s =
      match (strtok s [',']).1 with
      | none => []
      | some t => t :: commaRuns (strtok s [',']).2 := by
  rw [← commaRuns_dropWhile_comma s]
  unfold strtok
  cases hs : List.dropWhile (fun ch => [','].contains ch) s with
  | nil => simp [commaRuns_nil]
  | cons a l =>
    have ha := List.head_dropWhile_not (fun ch => [','].contains ch) s (by rw [hs]; simp)
    simp only [hs, List.head_cons] at ha
    have ha2 : a ≠ ',' := by simpa using ha
    simp only [List.isEmpty_cons, Bool.false_eq_true, if_false]
    exact commaRuns_first_run a l ha2

/-- The loop stores the comma-free runs of the text behind the entries it already has,
counts them, and never stores outside the array. -/
theorem parseDirs_eq_commaRuns :
    ∀ (n : Nat) (s : CStr) (dirs : List CStr) (num_dirs cap : Nat),
      s.length ≤ n → num_dirs ≤ cap → 0 < cap →
      parseDirs (strtok s [',']).1 (strtok s [',']).2 dirs num_dirs cap =
        some (dirs ++ commaRuns s, num_dirs + (commaRuns s).length) := by
  intro n
  induction n with
  | zero =>
    intro s dirs num_dirs cap hlen _ _
    have hs : s = [] := List.length_eq_zero.mp (Nat.le_zero.mp hlen)
    subst hs
    have h0 : strtok [] [','] = (none, []) := by decide
    rw [h0, parseDirs]
    simp [commaRuns_nil]
  | succ n ih =>
    intro s dirs num_dirs cap hlen hcap hpos
    have hruns := commaRuns_eq_strtok s
    cases htok : (strtok s [',']).1 with
    | none =>
      rw [htok] at hruns
      rw [parseDirs]
      simp [hruns]
    | some t =>
      rw [htok] at hruns
      have hlt := strtok_rest_length s t htok
      rw [parseDirs]
      have hroom : num_dirs < (if num_dirs ≥ cap then cap * 2 else cap) := by
        split_ifs <;> omega
      rw [if_pos hroom]
      rw [ih (strtok s [',']).2 (dirs ++ [t]) (num_dirs + 1)
          (if num_dirs ≥ cap then cap * 2 else cap) (by omega) (by omega)
          (by split_ifs <;> omega)]
      simp only [hruns, List.append_assoc, List.singleton_append, List.length_cons]
      congr 2
      omega

theorem splitOnP_piece_free {α : Type} (q : α → Bool) :
    ∀ (l : List α), ∀ piece ∈ l.splitOnP q, ∀ x ∈ piece, q x = false := by
  intro l
  induction l with
  | nil =>
    intro piece hp x hx
    simp at hp
    subst hp
    simp at hx
  | cons a l ih =>
    intro piece hp x hx
    rw [List.splitOnP_cons] at hp
    by_cases ha : q a = true
    · rw [if_pos ha] at hp
      rcases List.mem_cons.mp hp with h1 | h1
      · subst h1
        simp at hx
      · exact ih piece h1 x hx
    · rw [if_neg ha] at hp
      cases hsp : l.splitOnP q with
      | nil => exact absurd hsp (List.splitOnP_ne_nil q l)
      | cons hd tl =>
        rw [hsp] at hp ih
        simp only [List.modifyHead_cons, List.mem_cons] at hp
        rcases hp with h1 | h1
        · subst h1
          rcases List.mem_cons.mp hx with h2 | h2
          · subst h2
            simpa using ha
          · exact ih hd (List.mem_cons_self _ _) x h2
        · exact ih piece (List.mem_cons_of_mem _ h1) x hx

/-- Every comma-free run is non-empty and holds no comma. -/
theorem commaRuns_elements (s : CStr) : ∀ d ∈ commaRuns s, d ≠ [] ∧ ',' ∉ d := by
  intro d hd
  unfold commaRuns at hd
  rw [List.mem_filter] at hd
  refine ⟨?_, ?_⟩
  · intro h0
    rw [h0] at hd
    simp at hd
  · intro hmem
    have := splitOnP_piece_free (fun ch => ch == ',') s d hd.1 ',' hmem
    simp at this

/-- A string made only of commas has no comma-free run. -/
theorem commaRuns_only_commas (s : CStr) (h : ∀ ch ∈ s, ch = ',') : commaRuns s = [] := by
  induction s with
  | nil => exact commaRuns_nil
  | cons a l ih =>
    have ha : a = ',' := h a (List.mem_cons_self _ _)
    subst ha
    rw [commaRuns_cons_comma]
    exact ih (fun ch hch => h ch (List.mem_cons_of_mem _ hch))

/-- The comma-free runs of non-empty comma-free names joined with commas are the names. -/
theorem commaRuns_joinComma (names : List CStr) (hne : names ≠ [])
    (hnames : ∀ d ∈ names, d ≠ [] ∧ ',' ∉ d) : commaRuns (joinComma names) = names := by
  unfold commaRuns joinComma
  rw [List.splitOn_intercalate _ ',' (fun l hl => (hnames l hl).2) hne]
  rw [List.filter_eq_self]
  intro d hd
  have := (hnames d hd).1
  cases d with
  | nil => exact absurd rfl this
  | cons _ _ => rfl

/-- From a non-empty directory string, initialize makes exactly one call into the external
client: the external init, with the comma-free runs of the string and their number. -/
theorem initialize_calls_init (E : Env) (options : Option locusta_option) (w : World)
    (s : CStr) (hs : s ≠ []) (hsrc : DirStringIs E options s) :
    ( Locusta_initialize E options w).calls =
      some (w.trace ++ [Call.init (commaRuns s) (commaRuns s).length]) := by
  cases s with
  | nil => exact absurd rfl hs
  | cons c cs =>
    have hloop := parseDirs_eq_commaRuns (c :: cs).length (c :: cs) [] 0 8 (Nat.le_refl _)
      (by omega) (by omega)
    unfold Locusta_initialize
    rcases options with _ | ⟨_ | d⟩ <;>
      simp only [DirStringIs, runtimeDirOption, Option.bind, reduceCtorEq, false_or, true_and,
        false_and, or_false, Option.some.injEq] at hsrc <;>
      simp only [hsrc, hloop] <;>
      by_cases hinit : E.locusta_init w.trace (commaRuns (c :: cs))
          (commaRuns (c :: cs)).length = 0 <;>
      simp [hinit, ERR, Outcome.calls, Outcome.world, World.call]

/-- C3: for every non-empty list of directory names, each non-empty and without a comma,
initialize given the names joined with `,` (as the `runtime_dir` option, or as
`LOCUSTA_RUNTIME_DIRS` when the option is unset) makes exactly one call into the external
client: the external init with exactly that list, in the same order, and a count equal to
its length. The number of names is not bounded, so this covers more than 8 names. -/
theorem initialize_passes_joined_names (E : Env) (options : Option locusta_option)
    (w : World) (names : List CStr) (hne : names ≠ [])
    (hnames : ∀ d ∈ names, d ≠ [] ∧ ',' ∉ d)
    (hsrc : DirStringIs E options (joinComma names)) :
    ( Locusta_initialize E options w).calls =
      some (w.trace ++ [Call.init names names.length]) := by
  have hruns := commaRuns_joinComma names hne hnames
  have hs : joinComma names ≠ [] := by
    intro h0
    rw [h0, commaRuns_nil] at hruns
    exact hne hruns.symm
  have := initialize_calls_init E options w (joinComma names) hs hsrc
  rw [hruns] at this
  exact this

/-- C3 at the input `a,b,c` given as the `runtime_dir` option: the external init receives
`a`, `b`, `c` and the count 3; and at ten names read from the environment, more than the
eight entries the array starts with. -/
theorem initialize_passes_joined_names_witness :
    [['a'], ['b'], ['c']] ≠ ([] : List CStr) ∧
    (∀ d ∈ [['a'], ['b'], ['c']], d ≠ [] ∧ ',' ∉ d) ∧
    joinComma [['a'], ['b'], ['c']] = "a,b,c".toList ∧
    DirStringIs (okEnv 0 0) (some { runtime_dir := some "a,b,c".toList })
      (joinComma [['a'], ['b'], ['c']]) ∧
    ( Locusta_initialize (okEnv 0 0) (some { runtime_dir := some "a,b,c".toList })
        (startWorld 0)).calls = some [Call.init [['a'], ['b'], ['c']] 3] ∧
    joinComma tenNames = "d0,d1,d2,d3,d4,d5,d6,d7,d8,d9".toList ∧
    ( Locusta_initialize (failEnv 0 (some "d0,d1,d2,d3,d4,d5,d6,d7,d8,d9".toList)) none
        (startWorld 0)).calls = some [Call.init tenNames 10] :=
  ⟨by decide, by decide, by decide, Or.inl (by decide),
    initialize_passes_joined_names (okEnv 0 0) (some { runtime_dir := some "a,b,c".toList })
      (startWorld 0) [['a'], ['b'], ['c']] (by decide) (by decide) (Or.inl (by decide)),
    by decide,
    initialize_passes_joined_names (failEnv 0 (some "d0,d1,d2,d3,d4,d5,d6,d7,d8,d9".toList))
      none (startWorld 0) tenNames (by decide) (by decide) (Or.inr ⟨rfl, by decide⟩)⟩

/-- C10: for every non-empty directory string, the sequence initialize passes to the
external init is the string's maximal comma-free runs in order, with their number as the
count; every element passed is non-empty and holds no comma; and when the string is made
only of commas the external init is reached with the empty sequence and the count 0. -/
theorem initialize_passes_comma_free_runs (E : Env) (options : Option locusta_option)
    (w : World) (s : CStr) (hs : s ≠ []) (hsrc : DirStringIs E options s) :
    ( Locusta_initialize E options w).calls =
        some (w.trace ++ [Call.init (commaRuns s) (commaRuns s).length]) ∧
    (∀ d ∈ commaRuns s, d ≠ [] ∧ ',' ∉ d) ∧
    ((∀ ch ∈ s, ch = ',') →
      ( Locusta_initialize E options w).calls = some (w.trace ++ [Call.init [] 0])) := by
  refine ⟨initialize_calls_init E options w s hs hsrc, commaRuns_elements s, ?_⟩
  intro hall
  have := initialize_calls_init E options w s hs hsrc
  rw [commaRuns_only_commas s hall] at this
  exact this

/-- C10 at the input `,a,,b,` read from the environment while the options pointer is null:
the external init receives `a`, `b` and the count 2; and at the input `,,,` given as the
option it receives the empty sequence and the count 0. -/
theorem initialize_passes_comma_free_runs_witness :
    ",a,,b,".toList ≠ [] ∧
    DirStringIs (failEnv 0 (some ",a,,b,".toList)) none ",a,,b,".toList ∧
    ( Locusta_initialize (failEnv 0 (some ",a,,b,".toList)) none (startWorld 0)).calls =
      some [Call.init [['a'], ['b']] 2] ∧
    (∀ ch ∈ ",,,".toList, ch = ',') ∧
    ( Locusta_initialize (okEnv 0 0) (some { runtime_dir := some ",,,".toList })
        (startWorld 0)).calls = some [Call.init [] 0] :=
  ⟨by decide, Or.inr ⟨rfl, by decide⟩,
    by
      have hcalls := (initialize_passes_comma_free_runs (failEnv 0 (some ",a,,b,".toList))
        none (startWorld 0) ",a,,b,".toList (by decide) (Or.inr ⟨rfl, by decide⟩)).1
      rw [show commaRuns ",a,,b,".toList = [['a'], ['b']] by decide] at hcalls
      exact hcalls,
    by decide,
    (initialize_passes_comma_free_runs (okEnv 0 0) (some { runtime_dir := some ",,,".toList })
      (startWorld 0) ",,,".toList (by decide) (Or.inl (by decide))).2.2 (by decide)⟩

/-- The examples `a,,b` and `,a,b,` both have the runs `a`, `b`; a string of commas has
none. -/
theorem commaRuns_examples :
    commaRuns "a,,b".toList = [['a'], ['b']] ∧
    commaRuns ",a,b,".toList = [['a'], ['b']] ∧
    commaRuns ",,,".toList = [] := by
  decide

end Locusta
